import Mathlib

/-!
Shallow embedding of `src/crat/bra_legacy.py` (Bi-Level Routing Attention).

Tensors are modelled as total functions from (Nat) multi-indices to real
values; shapes are carried separately, mirroring how the Python code reads
them off with `.size()`.  Python exceptions are modelled with the `PyErr`
type and `Except`-valued constructors / forward passes.
-/

namespace CRAT

/-- Python exception kinds raised by `bra_legacy.py`. -/
inductive PyErr where
  | assertionError (msg : String)
  | valueError (msg : String)
  | notImplementedError (msg : String)
  | attributeError (msg : String)
  | runtimeError (msg : String)
  | einopsError (msg : String)
deriving DecidableEq, Repr

/-- 3-index real tensor (e.g. `(n, p^2, c)`). -/
abbrev T3 := ℕ → ℕ → ℕ → ℝ

/-- 4-index real tensor. -/
abbrev T4 := ℕ → ℕ → ℕ → ℕ → ℝ

/-- 5-index real tensor (e.g. the NDHWC activation). -/
abbrev T5 := ℕ → ℕ → ℕ → ℕ → ℕ → ℝ

/-- 6-index real tensor (windowed activation `(n, p^3, d, h, w, c)`). -/
abbrev T6 := ℕ → ℕ → ℕ → ℕ → ℕ → ℕ → ℝ

/-- Boolean test that an `Except` value is a success. -/
def exceptIsOk : Except PyErr α → Bool
  | .ok _ => true
  | .error _ => false

/-- Dot product of the first `c` channels of two channel vectors
(one entry of a matrix product `A @ B.transpose(-2,-1)`). -/
def dotR (c : ℕ) (u v : ℕ → ℝ) : ℝ := ∑ i ∈ Finset.range c, u i * v i

/-- `nn.Softmax(dim=-1)` applied to one row, as in `bra_legacy.py` lines 42/56
and 202/313: each entry is its exponential divided by the row's total
exponential mass. -/
noncomputable def softmaxL (l : List ℝ) : List ℝ :=
  l.map (fun x => Real.exp x / (l.map Real.exp).sum)

/-- `torch.topk(row, k, dim=-1)` on one row, returning (value, index) pairs:
pair each entry with its position, stably sort by value in descending order,
and keep the first `k`.  (`torch.topk` leaves tie order backend-defined; the
stable sort is one deterministic realisation, and no claim below depends on
the tie order.) -/
def topkPairs {α : Type _} [LinearOrder α] (row : List α) (k : ℕ) : List (ℕ × α) :=
  (row.enum.mergeSort (fun a b => decide (b.2 ≤ a.2))).take k

/-- The `topk_index` component of `torch.topk` (line 55). -/
def topkIndices {α : Type _} [LinearOrder α] (row : List α) (k : ℕ) : List ℕ :=
  (topkPairs row k).map Prod.fst

/-- The `topk_attn_logit` component of `torch.topk` (line 55). -/
def topkValues {α : Type _} [LinearOrder α] (row : List α) (k : ℕ) : List α :=
  (topkPairs row k).map Prod.snd

/-!  ## TopkRouting (lines 22-58)  -/

/-- Resolved state of `TopkRouting.__init__` (lines 33-42).  The scale is kept
as the optional constructor argument; `TopkRoutingState.scale` resolves the
`qk_scale or qk_dim ** -0.5` default. -/
structure TopkRoutingState where
  topk : ℕ
  qk_dim : ℕ
  qk_scale : Option ℝ
  param_routing : Bool
  diff_routing : Bool

/-- `self.scale = qk_scale or qk_dim ** -0.5` (line 37). -/
noncomputable def TopkRoutingState.scale (st : TopkRoutingState) : ℝ :=
  st.qk_scale.getD ((st.qk_dim : ℝ) ^ (-(1/2 : ℝ)))

/-- `TopkRouting.__init__` (lines 33-42): stores the configuration and never
raises — it performs no validation of its flag combination. -/
def TopkRouting_init (qk_dim topk : ℕ) (qk_scale : Option ℝ)
    (param_routing diff_routing : Bool) : Except PyErr TopkRoutingState :=
  .ok ⟨topk, qk_dim, qk_scale, param_routing, diff_routing⟩

/-- `TopkRouting.forward` (lines 44-58) on `(n, p2, c)` query/key tensors.
`emb` is the module attribute `self.emb` (a learned linear map when
`param_routing`, identity otherwise); `scale` is `self.scale`.  The
`detach()` on line 52 only stops gradients and is the identity on values.
Per batch element `n` and query window `i`:
`attn_logit[n,i,j] = sum_c (query_hat[n,i,c]*scale) * key_hat[n,j,c]`,
then `torch.topk` over `j` and softmax over the kept logits. -/
noncomputable def TopkRouting_forward (st : TopkRoutingState)
    (emb : (ℕ → ℝ) → (ℕ → ℝ)) (p2 : ℕ) (query key : T3) :
    (ℕ → ℕ → List ℝ) × (ℕ → ℕ → List ℕ) :=
  let query_hat : T3 := fun n i => emb (query n i)
  let key_hat : T3 := fun n j => emb (key n j)
  let attn_logit : T3 := fun n i j =>
    dotR st.qk_dim (fun c => query_hat n i c * st.scale) (key_hat n j)
  let logitRow : ℕ → ℕ → List ℝ := fun n i =>
    List.ofFn (fun j : Fin p2 => attn_logit n i j)
  (fun n i => softmaxL (topkValues (logitRow n i) st.topk),
   fun n i => topkIndices (logitRow n i) st.topk)

/-!  ## KVGather (lines 61-93)  -/

/-- `KVGather.__init__` (lines 62-65): records the weighting mode after the
`assert mul_weight in ['none', 'soft', 'hard']` membership check. -/
def KVGather_init (mul_weight : String) : Except PyErr String :=
  if mul_weight = "none" ∨ mul_weight = "soft" ∨ mul_weight = "hard" then
    .ok mul_weight
  else
    .error (.assertionError "")

/-- `torch.gather(input, dim=2, index)` on 5-index tensors: the output reads
`input` at the same multi-index except that coordinate 2 is replaced by the
value of `index` there (lines 81-84). -/
def torchGather5dim2 (input : T5) (index : ℕ → ℕ → ℕ → ℕ → ℕ → ℕ) : T5 :=
  fun a b c d e => input a b (index a b c d e) d e

/-- `KVGather.forward` (lines 67-93).
`kv.view(n,1,p2,w2,c_kv).expand(-1,p2,-1,-1,-1)` broadcasts the window axis
of `kv` across a new query-window axis; `r_idx.view(n,p2,topk,1,1).expand`
broadcasts each routing index across the pixel and channel axes; the gather
along dim 2 then selects whole windows.  `soft` multiplies by the broadcast
routing weight, `hard` raises `NotImplementedError`, anything else (`none`)
returns the gathered tensor unchanged. -/
def KVGather_forward (mul_weight : String) (r_idx : ℕ → ℕ → ℕ → ℕ)
    (r_weight : T3) (kv : T4) : Except PyErr T5 :=
  let kv_expanded : T5 := fun a _b c d e => kv a c d e
  let idx_expanded : ℕ → ℕ → ℕ → ℕ → ℕ → ℕ := fun a b c _d _e => r_idx a b c
  let topk_kv := torchGather5dim2 kv_expanded idx_expanded
  if mul_weight = "soft" then
    .ok (fun a b c d e => r_weight a b c * topk_kv a b c d e)
  else if mul_weight = "hard" then
    .error (.notImplementedError "differentiable hard routing TBA")
  else
    .ok topk_kv

/-!  ## QKVLinear (lines 95-109)  -/

/-- `nn.Linear` applied along the last axis of a 6-index tensor:
`y[..., o] = sum_i x[..., i] * W[o][i] + b[o]`. -/
def linear6 (inDim : ℕ) (W : ℕ → ℕ → ℝ) (b : ℕ → ℝ) (x : T6) : T6 :=
  fun n p d h w o => dotR inDim (fun i => x n p d h w i) (W o) + b o

/-- `QKVLinear.forward` (lines 102-109): one affine map of output width
`qk_dim + qk_dim + dim`, split into `q`, `k`, `v` along the last axis, plus
the concatenation `kv = cat([k, v], dim=-1)`.  Returns `(q, kv, k, v)`. -/
def QKVLinear_forward (dim qk_dim : ℕ) (W : ℕ → ℕ → ℝ) (b : ℕ → ℝ)
    (x : T6) : T6 × T6 × T6 × T6 :=
  let full := linear6 dim W b x
  let q : T6 := fun n p d h w c => full n p d h w c
  let k : T6 := fun n p d h w c => full n p d h w (qk_dim + c)
  let v : T6 := fun n p d h w c => full n p d h w (qk_dim + qk_dim + c)
  let kv : T6 := fun n p d h w c =>
    if c < qk_dim then k n p d h w c else v n p d h w (c - qk_dim)
  (q, kv, k, v)

/-!  ## BiLevelRoutingAttention.__init__ (lines 121-204)  -/

/-- Constructor arguments of `BiLevelRoutingAttention` (lines 121-124). -/
structure BRAConfig where
  topk : ℕ
  dim : ℕ
  num_heads : ℕ
  n_win : ℕ
  qk_dim : Option ℕ
  qk_scale : Option ℝ
  kv_per_win : Option ℕ
  kv_downsample_ratio : Option ℕ
  kv_downsample_mode : String
  param_attention : String
  param_routing : Bool
  diff_routing : Bool
  soft_routing : Bool
  auto_pad : Bool

/-- Resolved state of a successfully constructed `BiLevelRoutingAttention`. -/
structure BRAState where
  dim : ℕ
  n_win : ℕ
  num_heads : ℕ
  qk_dim : ℕ
  qk_scale : Option ℝ
  topk : ℕ
  param_routing : Bool
  diff_routing : Bool
  soft_routing : Bool
  router : TopkRoutingState
  mul_weight : String
  param_attention : String
  wo_is_identity : Bool
  kv_downsample_mode : String
  kv_down_is_identity : Bool
  auto_pad : Bool

/-- `self.scale = qk_scale or self.qk_dim ** -0.5` (line 132). -/
noncomputable def BRAState.scale (st : BRAState) : ℝ :=
  st.qk_scale.getD ((st.qk_dim : ℝ) ^ (-(1/2 : ℝ)))

/-- `BiLevelRoutingAttention.__init__` (lines 121-204), with every raise
modelled in source order:
line 131 asserts the head divisibility of `qk_dim` and `dim`;
line 145 asserts `not (param_routing and not diff_routing)`;
lines 151-157 resolve the gather weighting mode (`soft` / `hard` / `none`)
and construct `KVGather` (whose own membership assert always passes here);
lines 161-168 dispatch on `param_attention` (`qkvo`, `qkv`, else ValueError);
lines 174-199 dispatch on `kv_downsample_mode`: the adaptive pools assert
`kv_per_win is not None`, the fixed pools assert the ratio is not None and
collapse to identity when the ratio is not greater than 1, `fracpool` and
`conv` raise NotImplementedError, and the final else raises — but because the
f-string in `raise ValueError(f'... {self.kv_downsaple_mode} ...')` reads the
misspelled attribute `kv_downsaple_mode`, Python raises AttributeError while
building the message, before any ValueError exists. -/
def BiLevelRoutingAttention_init (cfg : BRAConfig) : Except PyErr BRAState :=
  let qk_dim := cfg.qk_dim.getD cfg.dim
  if ¬ (qk_dim % cfg.num_heads = 0 ∧ cfg.dim % cfg.num_heads = 0) then
    .error (.assertionError "qk_dim and dim must be divisible by num_heads!")
  else if cfg.param_routing ∧ ¬ cfg.diff_routing then
    .error (.assertionError "")
  else
    let router : TopkRoutingState :=
      ⟨cfg.topk, qk_dim, cfg.qk_scale, cfg.param_routing, cfg.diff_routing⟩
    let mul_weight : String :=
      if cfg.soft_routing then "soft"
      else if cfg.diff_routing then "hard"
      else "none"
    match KVGather_init mul_weight with
    | .error e => .error e
    | .ok mw =>
      if cfg.param_attention = "qkvo" ∨ cfg.param_attention = "qkv" then
        let wo_is_identity := cfg.param_attention = "qkv"
        if cfg.kv_downsample_mode = "ada_avgpool" ∨
            cfg.kv_downsample_mode = "ada_maxpool" then
          if cfg.kv_per_win = none then .error (.assertionError "")
          else
            .ok ⟨cfg.dim, cfg.n_win, cfg.num_heads, qk_dim, cfg.qk_scale, cfg.topk,
                 cfg.param_routing, cfg.diff_routing, cfg.soft_routing, router, mw,
                 cfg.param_attention, wo_is_identity, cfg.kv_downsample_mode,
                 false, cfg.auto_pad⟩
        else if cfg.kv_downsample_mode = "maxpool" ∨
            cfg.kv_downsample_mode = "avgpool" then
          match cfg.kv_downsample_ratio with
          | none => .error (.assertionError "")
          | some ratio =>
            .ok ⟨cfg.dim, cfg.n_win, cfg.num_heads, qk_dim, cfg.qk_scale, cfg.topk,
                 cfg.param_routing, cfg.diff_routing, cfg.soft_routing, router, mw,
                 cfg.param_attention, wo_is_identity, cfg.kv_downsample_mode,
                 ¬ (1 < ratio), cfg.auto_pad⟩
        else if cfg.kv_downsample_mode = "identity" then
          .ok ⟨cfg.dim, cfg.n_win, cfg.num_heads, qk_dim, cfg.qk_scale, cfg.topk,
               cfg.param_routing, cfg.diff_routing, cfg.soft_routing, router, mw,
               cfg.param_attention, wo_is_identity, cfg.kv_downsample_mode,
               true, cfg.auto_pad⟩
        else if cfg.kv_downsample_mode = "fracpool" then
          .error (.notImplementedError "fracpool policy is not implemented yet!")
        else if cfg.kv_downsample_mode = "conv" then
          .error (.notImplementedError "conv policy is not implemented yet!")
        else
          .error (.attributeError
            "BiLevelRoutingAttention object has no attribute kv_downsaple_mode")
      else
        .error (.valueError
          ("param_attention mode " ++ cfg.param_attention ++ " is not surpported!"))

/-!  ## Forward-pass tensor transforms (lines 206-333)  -/

/-- Line 252: `rearrange(x, "n (q d) (j h) (i w) c -> n (q j i) d h w c",
j=n_win, i=n_win, q=n_win)`.  With window extents `wd, wh, ww`, the source
depth index is `q*wd + d`, and the merged window axis is `(q j i)`, i.e.
`p = (q*nw + j)*nw + i`. -/
def step2Rearrange (nw wd wh ww : ℕ) (x : T5) : T6 :=
  fun n p d h w c =>
    x n (p / (nw * nw) * wd + d) (p / nw % nw * wh + h) (p % nw * ww + w) c

/-- Line 271: `rearrange(q, 'n p3 d h w c -> n p3 (d h w) c')`: the merged
pixel index is `t = (d*wh + h)*ww + w`. -/
def pixFlatten (wh ww : ℕ) (y : T6) : T4 :=
  fun n p t c => y n p (t / (wh * ww)) (t / ww % wh) (t % ww) c

/-- Line 272: `rearrange(kv, 'n p3 d h w c -> (n p3) c d h w')`: the merged
batch axis is `np = n*p3 + p` and the channel moves to the front. -/
def kvToGrid (p3 : ℕ) (kv : T6) : T5 :=
  fun np c d h w => kv (np / p3) (np % p3) d h w c

/-- Line 273: `rearrange(kv_pix, '(n q j i) c d h w -> n (q j i) (d h w) c',
j=n_win, i=n_win, q=n_win)` with (possibly downsampled) per-window grid
extents `hg, wg`. -/
def gridToPix (nw hg wg : ℕ) (g : T5) : T4 :=
  fun n p t c => g (n * (nw * nw * nw) + p) c (t / (hg * wg)) (t / wg % hg) (t % wg)

/-- Line 282: `.mean([2, 3, 4])` over the per-window pixel grid. -/
noncomputable def windowMean (wd wh ww : ℕ) (y : T6) : T3 :=
  fun n p c =>
    (∑ d ∈ Finset.range wd, ∑ h ∈ Finset.range wh, ∑ w ∈ Finset.range ww,
      y n p d h w c) / ((wd * wh * ww : ℕ) : ℝ)

/-- Line 307: `rearrange(k_pix_sel, 'n p3 k w3 (m c) -> (n p3) m c (k w3)',
m=num_heads)` with `cm` channels per head and `w3` pixels per selected
window: output index `(b, m, c, t)` reads window `t / w3`, pixel `t % w3`,
channel `m*cm + c` of batch `b / p3`, query window `b % p3`. -/
def kHeadSplit (p3 w3 cm : ℕ) (ksel : T5) : T4 :=
  fun b mi ci t => ksel (b / p3) (b % p3) (t / w3) (t % w3) (mi * cm + ci)

/-- Line 308: `rearrange(v_pix_sel, 'n p3 k w3 (m c) -> (n p3) m (k w3) c',
m=num_heads)`. -/
def vHeadSplit (p3 w3 cm : ℕ) (vsel : T5) : T4 :=
  fun b mi t ci => vsel (b / p3) (b % p3) (t / w3) (t % w3) (mi * cm + ci)

/-- Line 309: `rearrange(q_pix, 'n p3 w3 (m c) -> (n p3) m w3 c',
m=num_heads)`. -/
def qHeadSplit (p3 cm : ℕ) (qpix : T4) : T4 :=
  fun b mi t ci => qpix (b / p3) (b % p3) t (mi * cm + ci)

/-- Lines 315-316: `rearrange(out, '(n q j i) m (d h w) c ->
n (q d) (j h) (i w) (m c)', j=n_win, i=n_win, q=n_win, d=wd, h=wh, w=ww)`
with `cm` channels per head. -/
def step10Rearrange (nw wd wh ww cm : ℕ) (u : T4) : T5 :=
  fun n dd hh www ch =>
    u (((n * nw + dd / wd) * nw + hh / wh) * nw + www / ww)
      (ch / cm)
      (((dd % wd) * wh + hh % wh) * ww + www % ww)
      (ch % cm)

/-- `nn.Linear` along the last axis of a 5-index tensor (the output
projection `self.wo`, line 323). -/
def linear5 (inDim : ℕ) (W : ℕ → ℕ → ℝ) (b : ℕ → ℝ) (x : T5) : T5 :=
  fun n d h w o => dotR inDim (fun i => x n d h w i) (W o) + b o

/-- The value returned by `BiLevelRoutingAttention.forward`, mirroring the
two return statements (lines 330-333): a 4-tuple `out, q, k, v` normally and
a 7-tuple `out, r_weight, r_idx, attn_weight, q, k, v` when
`ret_attn_mask=True`. -/
inductive BRARet where
  | plain (out : T5) (q k v : T6)
  | withMask (out : T5) (r_weight : ℕ → ℕ → List ℝ) (r_idx : ℕ → ℕ → List ℕ)
      (attn_weight : ℕ → ℕ → ℕ → List ℝ) (q k v : T6)

/-- Number of components of the returned Python tuple. -/
def BRARet.arity : BRARet → ℕ
  | .plain _ _ _ _ => 4
  | .withMask _ _ _ _ _ _ _ => 7

/-- Lines 245-333 of `BiLevelRoutingAttention.forward`: everything after the
padding/divisibility prologue, on an activation of (padded) extents
`D, H, W`.  `Wqkv, bqkv` are the `QKVLinear` parameters, `woW, woB` the
output projection, `emb` the router re-embedding attribute.  Raises in body
order: the einops rearrange on line 252 fails unless `D`, `H`, `W` are all
divisible by `n_win`; on line 272 the resolved downsampler `self.kv_down`
is applied to the 5-D `(n p3) c d h w` grid — `nn.Identity` passes it
through, but every non-identity resolution (`AvgPool2d`, `MaxPool2d`,
`AdaptiveAvgPool2d`, `AdaptiveMaxPool2d`) is a 2-D pooling module whose
functional rejects non-3D/4D input with a RuntimeError, so the call raises
whenever `kv_down_is_identity` is false; the only later raise is the `hard`
branch inside `KVGather.forward` (line 301).  On the identity path the
downsampled per-window grid extents equal `wd, wh, ww`.  The final crop
(lines 327-328) only shrinks the view of `out`, so it is the identity on
the retained entries of the value-level tensor; its (incorrect) shape
effect is modelled by `forwardOutShape`. -/
noncomputable def BRA_forwardCore (st : BRAState)
    (Wqkv : ℕ → ℕ → ℝ) (bqkv : ℕ → ℝ) (woW : ℕ → ℕ → ℝ) (woB : ℕ → ℝ)
    (emb : (ℕ → ℝ) → (ℕ → ℝ))
    (x : T5) (D H W : ℕ) (ret_attn_mask : Bool) : Except PyErr BRARet :=
  let nw := st.n_win
  if ¬ (D % nw = 0 ∧ H % nw = 0 ∧ W % nw = 0) then
    .error (.einopsError "rearrange axis sizes do not divide into the pattern")
  else
    let wd := D / nw
    let wh := H / nw
    let ww := W / nw
    let p3 := nw * nw * nw
    let xw : T6 := step2Rearrange nw wd wh ww x
    let qkv := QKVLinear_forward st.dim st.qk_dim Wqkv bqkv xw
    let q := qkv.1
    let kv := qkv.2.1
    let k := qkv.2.2.1
    let v := qkv.2.2.2
    let q_pix : T4 := pixFlatten wh ww q
    if ¬ st.kv_down_is_identity then
      .error (.runtimeError
        "non-empty 3D or 4D (batch mode) tensor expected for input")
    else
    let kv_pix : T4 := gridToPix nw wh ww (kvToGrid p3 kv)
    let q_win : T3 := windowMean wd wh ww q
    let k_win : T3 := windowMean wd wh ww kv
    let routed := TopkRouting_forward st.router emb p3 q_win k_win
    let r_weight := routed.1
    let r_idx := routed.2
    let r_idx_fn : ℕ → ℕ → ℕ → ℕ := fun n i j => (r_idx n i).getD j 0
    let r_weight_fn : T3 := fun n i j => (r_weight n i).getD j 0
    (KVGather_forward st.mul_weight r_idx_fn r_weight_fn kv_pix).bind fun kv_pix_sel =>
      let k_pix_sel : T5 := fun n p t s c => kv_pix_sel n p t s c
      let v_pix_sel : T5 := fun n p t s c => kv_pix_sel n p t s (st.qk_dim + c)
      let w3_kv := wd * wh * ww
      let cmk := st.qk_dim / st.num_heads
      let cmv := st.dim / st.num_heads
      let kk : T4 := kHeadSplit p3 w3_kv cmk k_pix_sel
      let vv : T4 := vHeadSplit p3 w3_kv cmv v_pix_sel
      let qq : T4 := qHeadSplit p3 cmk q_pix
      let len := st.topk * w3_kv
      let attn_weight : ℕ → ℕ → ℕ → List ℝ := fun b mi s =>
        softmaxL (List.ofFn (fun t : Fin len =>
          dotR cmk (fun c => qq b mi s c * st.scale) (fun c => kk b mi c t)))
      let out4 : T4 := fun b mi s ci =>
        ∑ t ∈ Finset.range len, (attn_weight b mi s).getD t 0 * vv b mi t ci
      let out5 : T5 := step10Rearrange nw wd wh ww cmv out4
      let out : T5 := if st.wo_is_identity then out5 else linear5 st.dim woW woB out5
      .ok (if ret_attn_mask then
            .withMask out r_weight r_idx attn_weight q k v
          else
            .plain out q k v)

/-- `BiLevelRoutingAttention.forward` (lines 206-333).  When `auto_pad` is
set (lines 229-240), the pad amounts are computed per axis
(`pad_d` from the depth residue, `pad_r` from width, `pad_b` from height)
but `F.pad` consumes its pad tuple from the LAST dimension backwards, so
`(0,0, pad_l,pad_d, pad_l,pad_r, pad_t,pad_b)` pads the channel by 0, the
width by `pad_d`, the height by `pad_r` and the depth by `pad_b` — each
spatial axis receives the deficit of a different axis.  Without `auto_pad`,
line 243 asserts divisibility by `n_win`. -/
noncomputable def BiLevelRoutingAttention_forward (st : BRAState)
    (Wqkv : ℕ → ℕ → ℝ) (bqkv : ℕ → ℝ) (woW : ℕ → ℕ → ℝ) (woB : ℕ → ℝ)
    (emb : (ℕ → ℝ) → (ℕ → ℝ))
    (x : T5) (D_in H_in W_in : ℕ) (ret_attn_mask : Bool) : Except PyErr BRARet :=
  if st.auto_pad then
    let pad_d := (st.n_win - D_in % st.n_win) % st.n_win
    let pad_r := (st.n_win - W_in % st.n_win) % st.n_win
    let pad_b := (st.n_win - H_in % st.n_win) % st.n_win
    let xp : T5 := fun n d h w c =>
      if d < D_in ∧ h < H_in ∧ w < W_in then x n d h w c else 0
    BRA_forwardCore st Wqkv bqkv woW woB emb xp
      (D_in + pad_b) (H_in + pad_r) (W_in + pad_d) ret_attn_mask
  else if D_in % st.n_win = 0 ∧ H_in % st.n_win = 0 ∧ W_in % st.n_win = 0 then
    BRA_forwardCore st Wqkv bqkv woW woB emb x
      D_in H_in W_in ret_attn_mask
  else
    .error (.assertionError "")

/-- Shape-level model of `BiLevelRoutingAttention.forward` on an input of
shape `(N, D_in, H_in, W_in, C)`:
lines 229-240 compute the pad amounts and apply them (to the mismatched
axes, per `F.pad`); line 243 asserts divisibility when `auto_pad=False`;
line 252 (einops) requires the padded extents to be divisible by `n_win`;
the `nn.Linear` inside `QKVLinear` (line 262) requires the channel extent to
equal its in-feature width `dim`;
the attention body and step-10 rearrange produce `(N, D, H, W, dim)`; and
lines 327-328 crop `out[:, :H_in, :W_in, :]` — a 4-slice on a 5-D tensor —
only when `pad_r > 0 or pad_b > 0`, shrinking dim 1 (depth) to `H_in` and
dim 2 (height) to `W_in` and leaving the width uncropped. -/
def forwardOutShape (auto_pad : Bool) (n_win dim : ℕ)
    (N D_in H_in W_in C : ℕ) : Except PyErr (ℕ × ℕ × ℕ × ℕ × ℕ) :=
  if auto_pad then
    let pad_d := (n_win - D_in % n_win) % n_win
    let pad_r := (n_win - W_in % n_win) % n_win
    let pad_b := (n_win - H_in % n_win) % n_win
    let D := D_in + pad_b
    let H := H_in + pad_r
    let W := W_in + pad_d
    if D % n_win = 0 ∧ H % n_win = 0 ∧ W % n_win = 0 then
      if C = dim then
        if 0 < pad_r ∨ 0 < pad_b then
          .ok (N, min D H_in, min H W_in, W, dim)
        else
          .ok (N, D, H, W, dim)
      else
        .error (.runtimeError "mat1 and mat2 shapes cannot be multiplied")
    else
      .error (.einopsError "rearrange axis sizes do not divide into the pattern")
  else
    if D_in % n_win = 0 ∧ H_in % n_win = 0 ∧ W_in % n_win = 0 then
      if C = dim then
        .ok (N, D_in, H_in, W_in, dim)
      else
        .error (.runtimeError "mat1 and mat2 shapes cannot be multiplied")
    else
      .error (.assertionError "")

/-!  ## Supporting lemmas  -/

/-- Dividing each summand by a common scalar divides a list sum by it. -/
lemma list_sum_map_div (l : List ℝ) (f : ℝ → ℝ) (S : ℝ) :
    (l.map (fun x => f x / S)).sum = (l.map f).sum / S := by
  induction l with
  | nil => simp
  | cons a t ih => simp [ih, add_div]

lemma softmaxL_length (l : List ℝ) : (softmaxL l).length = l.length := by
  simp [softmaxL]

lemma softmaxL_nonneg (l : List ℝ) : ∀ x ∈ softmaxL l, 0 ≤ x := by
  intro x hx
  rw [softmaxL, List.mem_map] at hx
  obtain ⟨a, -, rfl⟩ := hx
  refine div_nonneg (Real.exp_pos a).le (List.sum_nonneg ?_)
  intro y hy
  rw [List.mem_map] at hy
  obtain ⟨b, -, rfl⟩ := hy
  exact (Real.exp_pos b).le

lemma exp_list_sum_pos (l : List ℝ) (h : l ≠ []) : 0 < (l.map Real.exp).sum := by
  refine List.sum_pos _ ?_ ?_
  · intro x hx
    rw [List.mem_map] at hx
    obtain ⟨b, -, rfl⟩ := hx
    exact Real.exp_pos b
  · simpa using h

/-- The softmax of a nonempty row sums to exactly 1. -/
lemma softmaxL_sum (l : List ℝ) (h : l ≠ []) : (softmaxL l).sum = 1 := by
  rw [softmaxL, list_sum_map_div l Real.exp _]
  exact div_self (exp_list_sum_pos l h).ne'

lemma topkPairs_length {α : Type _} [LinearOrder α] (row : List α) (k : ℕ)
    (h : k ≤ row.length) : (topkPairs row k).length = k := by
  simp only [topkPairs, List.length_take, List.length_mergeSort, List.enum_length]
  omega

lemma topkValues_length {α : Type _} [LinearOrder α] (row : List α) (k : ℕ)
    (h : k ≤ row.length) : (topkValues row k).length = k := by
  simp [topkValues, topkPairs_length row k h]

lemma topkIndices_length {α : Type _} [LinearOrder α] (row : List α) (k : ℕ)
    (h : k ≤ row.length) : (topkIndices row k).length = k := by
  simp [topkIndices, topkPairs_length row k h]

/-- The sorted-by-score index list is a permutation of `0, ..., length-1`. -/
lemma sorted_enum_fst_perm {α : Type _} [LinearOrder α] (row : List α) :
    ((row.enum.mergeSort (fun a b => decide (b.2 ≤ a.2))).map Prod.fst).Perm
      (List.range row.length) := by
  have h := (List.mergeSort_perm row.enum (fun a b => decide (b.2 ≤ a.2))).map Prod.fst
  rwa [List.enum_map_fst] at h

/-- Top-k indices are pairwise distinct (selection without replacement). -/
lemma topkIndices_nodup {α : Type _} [LinearOrder α] (row : List α) (k : ℕ) :
    (topkIndices row k).Nodup := by
  rw [topkIndices, topkPairs, List.map_take]
  refine List.Nodup.sublist (List.take_sublist _ _) ?_
  exact (sorted_enum_fst_perm row).nodup_iff.mpr (List.nodup_range _)

/-- Every top-k index is a valid window index. -/
lemma topkIndices_lt {α : Type _} [LinearOrder α] (row : List α) (k : ℕ) :
    ∀ j ∈ topkIndices row k, j < row.length := by
  intro j hj
  rw [topkIndices, topkPairs, List.map_take] at hj
  have hj' := List.mem_of_mem_take hj
  have := (sorted_enum_fst_perm row).mem_iff.mp hj'
  exact List.mem_range.mp this

/-- With `k` equal to the row length, the top-k indices are a permutation of
all indices. -/
lemma topkIndices_perm {α : Type _} [LinearOrder α] (row : List α) :
    (topkIndices row row.length).Perm (List.range row.length) := by
  rw [topkIndices, topkPairs]
  have hlen : (row.enum.mergeSort (fun a b => decide (b.2 ≤ a.2))).length
      = row.length := by
    rw [List.length_mergeSort, List.enum_length]
  have htake : (row.enum.mergeSort (fun a b => decide (b.2 ≤ a.2))).take row.length
      = row.enum.mergeSort (fun a b => decide (b.2 ≤ a.2)) := by
    rw [← hlen, List.take_length]
  rw [htake]
  exact sorted_enum_fst_perm row

/-!  ## Claims C3 and C4: routing weights and indices  -/

/-- C3: for every input, the routing weights produced by
`TopkRouting.forward` for each query window are the softmax of only the
selected top-k logits: each query window's weight row has exactly `topk`
entries, all non-negative, summing to exactly 1. -/
theorem c3_routing_weights_softmax (st : TopkRoutingState)
    (emb : (ℕ → ℝ) → (ℕ → ℝ)) (p2 : ℕ) (query key : T3) (n i : ℕ)
    (h1 : 0 < st.topk) (h2 : st.topk ≤ p2) :
    ((TopkRouting_forward st emb p2 query key).1 n i).length = st.topk ∧
    (∀ x ∈ (TopkRouting_forward st emb p2 query key).1 n i, 0 ≤ x) ∧
    ((TopkRouting_forward st emb p2 query key).1 n i).sum = 1 := by
  simp only [TopkRouting_forward]
  set row : List ℝ := List.ofFn (fun j : Fin p2 =>
    dotR st.qk_dim (fun c => emb (query n i) c * st.scale) (emb (key n j))) with hrow
  have hrowlen : row.length = p2 := by rw [hrow]; exact List.length_ofFn _
  have hklen : st.topk ≤ row.length := by omega
  have hvlen : (topkValues row st.topk).length = st.topk :=
    topkValues_length row _ hklen
  have hne : topkValues row st.topk ≠ [] := by
    intro hc
    rw [hc] at hvlen
    simp at hvlen
    omega
  refine ⟨?_, softmaxL_nonneg _, softmaxL_sum _ hne⟩
  rw [softmaxL_length, hvlen]

/-- Witness for C3 at a concrete input (`p2 = 1`, `topk = 1`, zero tensors). -/
theorem c3_routing_weights_softmax_witness :
    ((TopkRouting_forward ⟨1, 1, some 1, false, false⟩ id 1
      (fun _ _ _ => 0) (fun _ _ _ => 0)).1 0 0).sum = 1 :=
  (c3_routing_weights_softmax ⟨1, 1, some 1, false, false⟩ id 1
    (fun _ _ _ => 0) (fun _ _ _ => 0) 0 0 (by decide) (by decide)).2.2

/-- C4: for every input with `topk` not exceeding the window count `p2`
(= `n_win^3` in the attention block), the routing indices produced by
`TopkRouting.forward` are pairwise distinct for each query window, each lies
in `[0, p2)`, and there are exactly `topk` of them. -/
theorem c4_routing_indices_distinct_inrange (st : TopkRoutingState)
    (emb : (ℕ → ℝ) → (ℕ → ℝ)) (p2 : ℕ) (query key : T3) (n i : ℕ)
    (h2 : st.topk ≤ p2) :
    ((TopkRouting_forward st emb p2 query key).2 n i).Nodup ∧
    (∀ j ∈ (TopkRouting_forward st emb p2 query key).2 n i, j < p2) ∧
    ((TopkRouting_forward st emb p2 query key).2 n i).length = st.topk := by
  simp only [TopkRouting_forward]
  set row : List ℝ := List.ofFn (fun j : Fin p2 =>
    dotR st.qk_dim (fun c => emb (query n i) c * st.scale) (emb (key n j))) with hrow
  have hrowlen : row.length = p2 := by rw [hrow]; exact List.length_ofFn _
  refine ⟨topkIndices_nodup _ _, ?_, ?_⟩
  · intro j hj
    have := topkIndices_lt row st.topk j hj
    omega
  · rw [topkIndices_length row st.topk (by omega)]

/-- Witness for C4 at a concrete input (`p2 = 2`, `topk = 2`). -/
theorem c4_routing_indices_distinct_inrange_witness :
    ((TopkRouting_forward ⟨2, 1, some 1, false, false⟩ id 2
      (fun _ _ _ => 0) (fun _ _ _ => 0)).2 0 0).Nodup :=
  (c4_routing_indices_distinct_inrange ⟨2, 1, some 1, false, false⟩ id 2
    (fun _ _ _ => 0) (fun _ _ _ => 0) 0 0 (by decide)).1

/-!  ## Claim C1: output shape under auto_pad  -/

/-- C1 (code bug): the claim says `forward` always returns a tensor of the
input's shape, with `auto_pad` padding to the next multiple of `n_win` and
cropping back.  The code does neither in 3D.  On the spec's own scenario
(`n_win=2`, input `(1,15,16,16,32)`), `F.pad` applies the depth deficit to
the width axis (lines 236-239), so depth stays 15 and the window partition
(line 252) raises an einops error instead of returning anything.  When all
three spatial residues happen to coincide (input `(1,15,15,15,32)`), padding
accidentally lands right, but the crop `out[:, :H_in, :W_in, :]`
(lines 327-328) slices depth by `H_in` and height by `W_in` and leaves width
uncropped, returning shape `(1,15,15,16,32)` ≠ input shape.  The
divisible-extents case (no padding) is shape-preserving as claimed. -/
theorem c1_auto_pad_shape_bug :
    forwardOutShape true 2 32 1 15 16 16 32 =
      .error (.einopsError "rearrange axis sizes do not divide into the pattern") ∧
    forwardOutShape true 2 32 1 15 15 15 32 = .ok (1, 15, 15, 16, 32) ∧
    (1, 15, 15, 16, 32) ≠ ((1, 15, 15, 15, 32) : ℕ × ℕ × ℕ × ℕ × ℕ) ∧
    forwardOutShape false 2 32 1 16 16 16 32 = .ok (1, 16, 16, 16, 32) :=
  ⟨rfl, rfl, by decide, rfl⟩

/-!  ## Claim C5: KVGather semantics  -/

/-- C5: for every routing index tensor, routing weight tensor and per-window
KV tensor, `KVGather.forward` with `mul_weight='none'` returns the tensor
whose entry at `(n, i, j, s, c)` is the pixel block of window `r_idx[n,i,j]`
of `kv` (an independent copy per occurrence, no deduplication); with
`'soft'` the same block multiplied uniformly by the scalar routing weight
`r_weight[n,i,j]`; and `'hard'` raises `NotImplementedError`. -/
theorem c5_kv_gather_modes (r_idx : ℕ → ℕ → ℕ → ℕ) (r_weight : T3) (kv : T4) :
    KVGather_forward "none" r_idx r_weight kv =
      .ok (fun n i j s c => kv n (r_idx n i j) s c) ∧
    KVGather_forward "soft" r_idx r_weight kv =
      .ok (fun n i j s c => r_weight n i j * kv n (r_idx n i j) s c) ∧
    KVGather_forward "hard" r_idx r_weight kv =
      .error (.notImplementedError "differentiable hard routing TBA") :=
  ⟨rfl, rfl, rfl⟩

/-!  ## Claim C6: param_routing without diff_routing  -/

/-- C6 (counterexample): constructing the ROUTER (`TopkRouting`) with
`param_routing=True` and `diff_routing=False` does NOT raise —
`TopkRouting.__init__` (lines 33-42) performs no validation of this flag
combination, so the claim that constructing "a router or attention module"
with these flags fails eagerly is false for the router. -/
theorem c6_router_init_accepts :
    exceptIsOk (TopkRouting_init 4 1 none true false) = true := rfl

/-- C6 (amended): constructing the ATTENTION module
(`BiLevelRoutingAttention`) with `param_routing=True` and
`diff_routing=False` always fails at construction: either the head
divisibility assert (line 131) or the routing-flag assert (line 145) fires
before any forward call. -/
theorem c6_attention_init_rejects (cfg : BRAConfig)
    (h1 : cfg.param_routing = true) (h2 : cfg.diff_routing = false) :
    exceptIsOk (BiLevelRoutingAttention_init cfg) = false := by
  by_cases hdiv : (cfg.qk_dim.getD cfg.dim) % cfg.num_heads = 0 ∧
      cfg.dim % cfg.num_heads = 0
  · simp [BiLevelRoutingAttention_init, hdiv.1, hdiv.2, h1, h2, exceptIsOk]
  · simp [BiLevelRoutingAttention_init, hdiv, exceptIsOk]

/-- Witness for the amended C6 at a concrete configuration. -/
theorem c6_attention_init_rejects_witness :
    exceptIsOk (BiLevelRoutingAttention_init
      ⟨4, 64, 8, 7, none, none, some 4, some 4, "identity", "qkvo",
        true, false, false, false⟩) = false :=
  c6_attention_init_rejects
    ⟨4, 64, 8, 7, none, none, some 4, some 4, "identity", "qkvo",
      true, false, false, false⟩ rfl rfl

/-!  ## Claim C7: invalid param_attention / kv_downsample_mode  -/

/-- C7 (code bug): an invalid `param_attention` does raise the claimed
ValueError (line 168), but an unrecognized `kv_downsample_mode` does not:
the `raise ValueError(f'kv_down_sample_mode {self.kv_downsaple_mode} ...')`
on line 199 reads the misspelled attribute `kv_downsaple_mode` while
formatting the message, so Python raises AttributeError before the
ValueError is ever constructed. -/
theorem c7_kv_mode_error_type :
    BiLevelRoutingAttention_init
      ⟨4, 64, 8, 7, none, none, some 4, some 4, "foo", "qkvo",
        false, false, false, false⟩ =
      .error (.attributeError
        "BiLevelRoutingAttention object has no attribute kv_downsaple_mode") ∧
    BiLevelRoutingAttention_init
      ⟨4, 64, 8, 7, none, none, some 4, some 4, "identity", "invalid",
        false, false, false, false⟩ =
      .error (.valueError "param_attention mode invalid is not surpported!") :=
  ⟨rfl, rfl⟩

/-!  ## Claim C8: diff_routing without soft_routing selects hard gather  -/

lemma except_bind_map_const {α β : Type _} (E : Except PyErr α)
    (F : α → Except PyErr β) (g : β → ℕ) (n : ℕ)
    (h : ∀ a b, F a = .ok b → g b = n) :
    (E.bind F).map g = (E.bind F).map (fun _ => n) := by
  cases E with
  | error e => rfl
  | ok a =>
    simp only [Except.bind]
    cases hF : F a with
    | error e => rfl
    | ok b => simp [Except.map, h a b hF]

lemma core_arity_map (st : BRAState) (Wqkv : ℕ → ℕ → ℝ) (bqkv : ℕ → ℝ)
    (woW : ℕ → ℕ → ℝ) (woB : ℕ → ℝ) (emb : (ℕ → ℝ) → (ℕ → ℝ))
    (y : T5) (D H W : ℕ) (ret : Bool) :
    (BRA_forwardCore st Wqkv bqkv woW woB emb y D H W ret).map
        BRARet.arity =
    (BRA_forwardCore st Wqkv bqkv woW woB emb y D H W ret).map
        (fun _ => if ret then 7 else 4) := by
  unfold BRA_forwardCore
  by_cases hdivq : (D % st.n_win = 0 ∧ H % st.n_win = 0 ∧ W % st.n_win = 0)
  · rw [if_neg (not_not_intro hdivq)]
    by_cases hid : st.kv_down_is_identity = true
    · rw [if_neg (not_not_intro hid)]
      apply except_bind_map_const
      intro a b hF
      injection hF with hb
      subst hb
      cases ret <;> rfl
    · rw [if_pos hid]
      rfl
  · rw [if_pos hdivq]
    rfl

/-- C2 (amended): whenever `forward` returns a value, the returned Python
tuple has FOUR components (`out, q, k, v`) when `ret_attn_mask=False` and
seven (`out, r_weight, r_idx, attn_weight, q, k, v`) when it is `True`
(lines 330-333); the flag-off call never returns a single value. -/
theorem c2_forward_return_arity (st : BRAState) (Wqkv : ℕ → ℕ → ℝ)
    (bqkv : ℕ → ℝ) (woW : ℕ → ℕ → ℝ) (woB : ℕ → ℝ)
    (emb : (ℕ → ℝ) → (ℕ → ℝ))
    (x : T5) (D_in H_in W_in : ℕ) (ret : Bool) :
    (BiLevelRoutingAttention_forward st Wqkv bqkv woW woB emb
        x D_in H_in W_in ret).map BRARet.arity =
    (BiLevelRoutingAttention_forward st Wqkv bqkv woW woB emb
        x D_in H_in W_in ret).map (fun _ => if ret then 7 else 4) := by
  unfold BiLevelRoutingAttention_forward
  by_cases hap : st.auto_pad
  · simp only [hap, if_true]
    apply core_arity_map
  · simp only [hap, Bool.false_eq_true, if_false]
    by_cases hdiv : (D_in % st.n_win = 0 ∧ H_in % st.n_win = 0 ∧ W_in % st.n_win = 0)
    · rw [if_pos hdiv]
      apply core_arity_map
    · rw [if_neg hdiv]
      rfl

/-- C2 (counterexample): at a concrete constructible configuration and
input, the `ret_attn_mask=False` call returns a 4-tuple, not exactly one
value as claimed. -/
theorem c2_flag_off_returns_four :
    BiLevelRoutingAttention_init
      ⟨1, 1, 1, 1, none, some 1, some 4, some 4, "identity", "qkv",
        false, false, false, false⟩ =
      .ok ⟨1, 1, 1, 1, some 1, 1, false, false, false, ⟨1, 1, some 1, false, false⟩,
        "none", "qkv", true, "identity", true, false⟩ ∧
    (BiLevelRoutingAttention_forward
      ⟨1, 1, 1, 1, some 1, 1, false, false, false, ⟨1, 1, some 1, false, false⟩,
        "none", "qkv", true, "identity", true, false⟩
      (fun _ _ => 0) (fun _ => 0) (fun _ _ => 0) (fun _ => 0) id
      (fun _ _ _ _ _ => 0) 1 1 1 false).map BRARet.arity = .ok 4 ∧ (4 : ℕ) ≠ 1 :=
  ⟨rfl, rfl, by decide⟩

/-!  ## Claim C9: full top-k reduces to unrestricted attention  -/

/-- One row of the windowed multi-head attention (lines 312-314) on a list
of (key, value) pixel pairs: softmax over the scaled query-key logits of
all entries (`attn_weight = softmax((q*scale) @ k^T)`), then the
softmax-weighted sum of the values at channel `c` (`out = attn_weight @ v`).
The key/value sequence is the concatenation of the selected windows' pixel
lists, so permutation-invariance of this function is exactly what makes the
routing order immaterial. -/
noncomputable def attnOutOn (scale : ℝ) (cq : ℕ) (qv : ℕ → ℝ)
    (kvs : List ((ℕ → ℝ) × (ℕ → ℝ))) (c : ℕ) : ℝ :=
  (((softmaxL (kvs.map (fun kv => dotR cq (fun ch => qv ch * scale) kv.1))).zip kvs).map
    (fun p => p.1 * p.2.2 c)).sum

lemma zip_map_mul {X : Type _} (l : List X) (f : X → ℝ) (g : X → ℝ) :
    (((l.map f).zip l).map (fun p => p.1 * g p.2)).sum =
    (l.map (fun x => f x * g x)).sum := by
  induction l with
  | nil => simp
  | cons a t ih => simp [ih]

/-- Closed form of the attention row: each value channel is weighted by its
normalized exponential score. -/
lemma attnOutOn_eq (scale : ℝ) (cq : ℕ) (qv : ℕ → ℝ)
    (kvs : List ((ℕ → ℝ) × (ℕ → ℝ))) (c : ℕ) :
    attnOutOn scale cq qv kvs c =
    (kvs.map (fun kv => Real.exp (dotR cq (fun ch => qv ch * scale) kv.1) /
      (kvs.map (fun kv2 =>
        Real.exp (dotR cq (fun ch => qv ch * scale) kv2.1))).sum * kv.2 c)).sum := by
  unfold attnOutOn softmaxL
  rw [List.map_map, List.map_map]
  simp only [Function.comp_def]
  exact zip_map_mul kvs _ (fun kv => kv.2 c)

/-- Softmax attention is invariant under permuting the key/value sequence. -/
lemma attnOutOn_perm (scale : ℝ) (cq : ℕ) (qv : ℕ → ℝ)
    {kvs kvs' : List ((ℕ → ℝ) × (ℕ → ℝ))} (hp : kvs'.Perm kvs) (c : ℕ) :
    attnOutOn scale cq qv kvs' c = attnOutOn scale cq qv kvs c := by
  rw [attnOutOn_eq, attnOutOn_eq]
  have hS : (kvs'.map (fun kv2 =>
      Real.exp (dotR cq (fun ch => qv ch * scale) kv2.1))).sum =
      (kvs.map (fun kv2 =>
      Real.exp (dotR cq (fun ch => qv ch * scale) kv2.1))).sum :=
    (hp.map _).sum_eq
  rw [hS]
  exact (hp.map _).sum_eq

lemma range_map_getD {X : Type _} (l : List X) (dflt : X) :
    (List.range l.length).map (fun i => l.getD i dflt) = l := by
  apply List.ext_getElem
  · simp
  · intro m h1 h2
    simp only [List.getElem_map, List.getElem_range]
    exact List.getD_eq_getElem l dflt h2

/-- Gathering along a permutation of all window indices permutes the window
list. -/
lemma perm_gathered {X : Type _} (idxs : List ℕ) (l : List X) (dflt : X)
    (hp : idxs.Perm (List.range l.length)) :
    (idxs.map (fun i => l.getD i dflt)).Perm l := by
  have h := hp.map (fun i => l.getD i dflt)
  rwa [range_map_getD] at h

/-- C9: when `topk` equals the total window count `p2`, the routing indices
of every query window are a permutation of all windows, so the selected KV
sequence (the concatenation of the routed windows' pixel lists, as
assembled by `KVGather` and consumed by lines 307-314) contains the pixels
of all windows, and the routed attention row equals unrestricted attention
over the whole pooled KV set in natural window order. -/
theorem c9_full_topk_equals_full_attention (st : TopkRoutingState)
    (emb : (ℕ → ℝ) → (ℕ → ℝ)) (p2 : ℕ) (q_win k_win : T3) (n i : ℕ)
    (kvs : List (List ((ℕ → ℝ) × (ℕ → ℝ)))) (scale : ℝ) (cq : ℕ)
    (qv : ℕ → ℝ) (c : ℕ)
    (hk : st.topk = p2) (hlen : kvs.length = p2) :
    ((((TopkRouting_forward st emb p2 q_win k_win).2 n i).map
        (fun t => kvs.getD t [])).flatten).Perm kvs.flatten ∧
    attnOutOn scale cq qv
      ((((TopkRouting_forward st emb p2 q_win k_win).2 n i).map
        (fun t => kvs.getD t [])).flatten) c =
      attnOutOn scale cq qv kvs.flatten c := by
  simp only [TopkRouting_forward]
  set row : List ℝ := List.ofFn (fun j : Fin p2 =>
    dotR st.qk_dim (fun ch => emb (q_win n i) ch * st.scale) (emb (k_win n j))) with hrow
  have hrowlen : row.length = p2 := by rw [hrow]; exact List.length_ofFn _
  have hperm0 : (topkIndices row st.topk).Perm (List.range kvs.length) := by
    rw [hk, ← hrowlen, show kvs.length = row.length by rw [hrowlen, hlen]]
    exact topkIndices_perm row
  have hgather := perm_gathered (topkIndices row st.topk) kvs [] hperm0
  have hflat := hgather.flatten
  exact ⟨hflat, attnOutOn_perm scale cq qv hflat c⟩

/-- Witness for C9 with one window (`p2 = topk = 1`) holding one pixel. -/
theorem c9_full_topk_equals_full_attention_witness :
    attnOutOn 1 1 (fun _ => 0)
      ((((TopkRouting_forward ⟨1, 1, some 1, false, false⟩ id 1
          (fun _ _ _ => 0) (fun _ _ _ => 0)).2 0 0).map
        (fun t => ([[(fun _ => (0 : ℝ), fun _ => (0 : ℝ))]] :
          List (List ((ℕ → ℝ) × (ℕ → ℝ)))).getD t [])).flatten) 0 =
      attnOutOn 1 1 (fun _ => 0)
        ([[(fun _ => (0 : ℝ), fun _ => (0 : ℝ))]] :
          List (List ((ℕ → ℝ) × (ℕ → ℝ)))).flatten 0 :=
  (c9_full_topk_equals_full_attention ⟨1, 1, some 1, false, false⟩ id 1
    (fun _ _ _ => 0) (fun _ _ _ => 0) 0 0
    [[(fun _ => (0 : ℝ), fun _ => (0 : ℝ))]] 1 1 (fun _ => 0) 0 rfl rfl).2

/-!  ## Claim C10: partition / reassemble round trip  -/

lemma split_base (K x r : ℕ) (h : r < K) :
    (K * x + r) / K = x ∧ (K * x + r) % K = r := by
  have hK : 0 < K := lt_of_le_of_lt (Nat.zero_le r) h
  constructor
  · rw [Nat.mul_add_div hK, Nat.div_eq_of_lt h, add_zero]
  · rw [Nat.mul_add_mod, Nat.mod_eq_of_lt h]

/-- Decomposition of a mixed-radix index `(a*h + b)*w + c` with digits
`b < h`, `c < w` — the arithmetic content of every einops axis merge in the
file. -/
lemma mixedDecomp (h w a b c : ℕ) (hb : b < h) (hc : c < w) :
    ((a * h + b) * w + c) / (h * w) = a ∧
    ((a * h + b) * w + c) / w % h = b ∧
    ((a * h + b) * w + c) % w = c := by
  have hw : 0 < w := lt_of_le_of_lt (Nat.zero_le c) hc
  have hbc : b * w + c < h * w := by
    calc b * w + c < b * w + w := by omega
    _ = (b + 1) * w := by ring
    _ ≤ h * w := Nat.mul_le_mul_right w hb
  refine ⟨?_, ?_, ?_⟩
  · have he : (a * h + b) * w + c = (h * w) * a + (b * w + c) := by ring
    rw [he]
    exact (split_base (h * w) a _ hbc).1
  · have h2 : (a * h + b) * w + c = w * (a * h + b) + c := by ring
    rw [h2, Nat.mul_add_div hw, Nat.div_eq_of_lt hc, add_zero,
      mul_comm a h, Nat.mul_add_mod, Nat.mod_eq_of_lt hb]
  · rw [mul_comm (a * h + b) w, Nat.mul_add_mod, Nat.mod_eq_of_lt hc]

/-- C10: partitioning an activation into `n_win³` windows (the step-2
rearrange, line 252) and immediately reassembling through the step-10
rearrange (lines 315-316) — with only the pure pixel-flatten (line 271) and
head-split (line 309) reshapes in between, and no attention computation —
reproduces the original tensor exactly at every in-range index
(`D < n_win*wd`, `H < n_win*wh`, `W < n_win*ww`; the channel needs no bound
since `(Ch/cm)*cm + Ch%cm = Ch` always). -/
theorem c10_partition_reassemble_roundtrip (nw wd wh ww cm : ℕ) (x : T5)
    (n D H W Ch : ℕ) (hwh : 0 < wh) (hww : 0 < ww)
    (hD : D < nw * wd) (hH : H < nw * wh) (hW : W < nw * ww) :
    step10Rearrange nw wd wh ww cm
      (qHeadSplit (nw * nw * nw) cm (pixFlatten wh ww (step2Rearrange nw wd wh ww x)))
      n D H W Ch = x n D H W Ch := by
  have hq : D / wd < nw := Nat.div_lt_of_lt_mul (by rwa [mul_comm] at hD)
  have hj : H / wh < nw := Nat.div_lt_of_lt_mul (by rwa [mul_comm] at hH)
  have hi : W / ww < nw := Nat.div_lt_of_lt_mul (by rwa [mul_comm] at hW)
  simp only [step10Rearrange, qHeadSplit, pixFlatten, step2Rearrange]
  rw [show ((n * nw + D / wd) * nw + H / wh) * nw + W / ww
      = (nw * nw * nw) * n + (((D / wd) * nw + H / wh) * nw + W / ww) by ring]
  have h1 : (D / wd) * nw + H / wh < nw * nw := by
    calc (D / wd) * nw + H / wh < (D / wd) * nw + nw := by omega
    _ = (D / wd + 1) * nw := by ring
    _ ≤ nw * nw := Nat.mul_le_mul_right nw hq
  have hP0 : ((D / wd) * nw + H / wh) * nw + W / ww < nw * nw * nw := by
    calc ((D / wd) * nw + H / wh) * nw + W / ww
        < ((D / wd) * nw + H / wh) * nw + nw := by omega
    _ = ((D / wd) * nw + H / wh + 1) * nw := by ring
    _ ≤ (nw * nw) * nw := Nat.mul_le_mul_right nw h1
  rw [(split_base (nw * nw * nw) n _ hP0).1, (split_base (nw * nw * nw) n _ hP0).2]
  obtain ⟨e1, e2, e3⟩ := mixedDecomp nw nw (D / wd) (H / wh) (W / ww) hj hi
  rw [e1, e2, e3]
  obtain ⟨f1, f2, f3⟩ := mixedDecomp wh ww (D % wd) (H % wh) (W % ww)
    (Nat.mod_lt H hwh) (Nat.mod_lt W hww)
  rw [f1, f2, f3]
  rw [show D / wd * wd + D % wd = D by rw [mul_comm]; exact Nat.div_add_mod D wd]
  rw [show H / wh * wh + H % wh = H by rw [mul_comm]; exact Nat.div_add_mod H wh]
  rw [show W / ww * ww + W % ww = W by rw [mul_comm]; exact Nat.div_add_mod W ww]
  rw [show Ch / cm * cm + Ch % cm = Ch by rw [mul_comm]; exact Nat.div_add_mod Ch cm]

/-- Witness for C10: `n_win = 2`, unit windows, a non-constant activation,
index `(0, 1, 1, 1, 0)`. -/
theorem c10_partition_reassemble_roundtrip_witness :
    step10Rearrange 2 1 1 1 1
      (qHeadSplit (2 * 2 * 2) 1 (pixFlatten 1 1 (step2Rearrange 2 1 1 1
        (fun n d h w c => ((n + 2 * d + 3 * h + 5 * w + 7 * c : ℕ) : ℝ)))))
      0 1 1 1 0 =
    (fun n d h w c => ((n + 2 * d + 3 * h + 5 * w + 7 * c : ℕ) : ℝ)) 0 1 1 1 0 :=
  c10_partition_reassemble_roundtrip 2 1 1 1 1
    (fun n d h w c => ((n + 2 * d + 3 * h + 5 * w + 7 * c : ℕ) : ℝ))
    0 1 1 1 0 (by decide) (by decide) (by decide) (by decide) (by decide)
